import Mathlib

/-!
Verification of the APS/VIKTOR viewable-listing core: a shallow embedding of
`src/app.py` (manifest view extraction, catalog memo wrapper) and
`src/aps_helpers.py` (hub/project/folder walk, version resolution, HTTP
response handling, URN base64 encoding), with theorems checking the
natural-language specification against it.
-/

set_option maxHeartbeats 1000000

namespace APS

/-! ## Manifest model (`get_view_options` in `src/app.py`)

A manifest node is a JSON object; we record the fields the code reads via
`.get`: `type`, `role`, `name`, `guid`, `outputType` (each possibly absent)
and `children` (absent modelled as `[]`, matching `.get("children", [])`).
-/

inductive MNode where
  | mk : Option String → Option String → Option String → Option String →
      Option String → List MNode → MNode

def MNode.type : MNode → Option String
  | .mk t _ _ _ _ _ => t

def MNode.role : MNode → Option String
  | .mk _ r _ _ _ _ => r

def MNode.name : MNode → Option String
  | .mk _ _ n _ _ _ => n

def MNode.guid : MNode → Option String
  | .mk _ _ _ g _ _ => g

def MNode.outputType : MNode → Option String
  | .mk _ _ _ _ o _ => o

def MNode.children : MNode → List MNode
  | .mk _ _ _ _ _ c => c

/-- The manifest document: the code only reads `manifest.get("derivatives", [])`. -/
structure Manifest where
  derivatives : List MNode

/-- One extracted view: the code's `view_name` / `view_guid` / `view_role`
triple that feeds `OptionListElement(label=f"{'[3D]' if ...} {view_name}",
value=view_guid)`. -/
structure ManifestView where
  name : String
  guid : String
  role : String
deriving DecidableEq, Repr

/-- Python truthiness of an optional string (`if view_name and view_guid:`):
`None` and `""` are falsy. -/
def truthyStr : Option String → Bool
  | none => false
  | some s => s ≠ ""

/-- Python's `s.startswith(p)`: `p` is a prefix of `s` (stated on the
character lists so that concrete instances evaluate). -/
def pyStartsWith (s p : String) : Bool :=
  p.data.isPrefixOf s.data

/-- The inner `for child_node in geometry_node.get("children", [])` loop:
first child with `"type" == "view"` (the loop `break`s at the first hit). -/
def findFirstView : List MNode → Option MNode
  | [] => none
  | c :: cs => if c.type = some "view" then some c else findFirstView cs

/-- Body of the geometry-container branch of `get_view_options`
(src/app.py lines 49-65), for one geometry node `g`:
`view_name = g.get("name")`; scan children for the first `"view"` node,
taking its guid; `if child_node.get("name").startswith("Sheet:")` replaces the
name — when that child has no `"name"` field this is `None.startswith`, a
Python `AttributeError`, modelled as `Except.error`.  Finally
`if view_name and view_guid:` emits the entry. -/
def processGeometry (g : MNode) : Except String (Option ManifestView) :=
  match findFirstView g.children with
  | none =>
    -- view_guid stays None, so `if view_name and view_guid` is false: no entry
    Except.ok none
  | some c =>
    match c.name with
    | none => Except.error "AttributeError"
    | some n =>
      let viewName : Option String := if pyStartsWith n "Sheet:" then some n else g.name
      if truthyStr viewName ∧ truthyStr c.guid then
        Except.ok (some ⟨viewName.getD "", c.guid.getD "", g.role.getD ""⟩)
      else
        Except.ok none

/-- The `for geometry_node in derivative.get("children", [])` loop:
process each child with `type == "geometry"` and `role in ["3d","2d"]`. -/
def processChildren : List MNode → Except String (List ManifestView)
  | [] => Except.ok []
  | g :: gs =>
    if g.type = some "geometry" ∧ (g.role = some "3d" ∨ g.role = some "2d") then
      match processGeometry g with
      | Except.error e => Except.error e
      | Except.ok none => processChildren gs
      | Except.ok (some v) =>
        match processChildren gs with
        | Except.error e => Except.error e
        | Except.ok vs => Except.ok (v :: vs)
    else processChildren gs

/-- The extraction loop of `get_view_options` (src/app.py lines 42-65): for
each derivative with `outputType in ["svf","svf2"]`, extract views from its
children, in manifest order.  The label prefix `[3D]`/`[2D]` is presentation
of `ManifestView.role` and is not modelled separately. -/
def get_view_options (m : Manifest) : Except String (List ManifestView) :=
  go m.derivatives
where
  go : List MNode → Except String (List ManifestView)
  | [] => Except.ok []
  | d :: ds =>
    if d.outputType = some "svf" ∨ d.outputType = some "svf2" then
      match processChildren d.children with
      | Except.error e => Except.error e
      | Except.ok vs =>
        match go ds with
        | Except.error e => Except.error e
        | Except.ok rest => Except.ok (vs ++ rest)
    else go ds

/-- Modelled from the spec's words (§4.3 steps 1-4): the total extraction the
spec describes — per geometry container, take the first `view` child's guid,
prefer the view node's name exactly when it starts with `"Sheet:"` (a missing
view-node name never starts with `"Sheet:"`, so the container's name is
kept), and silently drop containers lacking a (non-empty) name or guid.
Used to state the refinement theorem for C1. -/
def specProcessGeometry (g : MNode) : Option ManifestView :=
  match findFirstView g.children with
  | none => none
  | some c =>
    let viewName : Option String :=
      match c.name with
      | some n => if pyStartsWith n "Sheet:" then some n else g.name
      | none => g.name
    if truthyStr viewName ∧ truthyStr c.guid then
      some ⟨viewName.getD "", c.guid.getD "", g.role.getD ""⟩
    else none

/-- Modelled from the spec's words (§4.3): select svf/svf2 derivatives, their
geometry children of role 3d/2d, and emit the surviving views in manifest
order. -/
def extractViewsSpec (m : Manifest) : List ManifestView :=
  go m.derivatives
where
  go : List MNode → List ManifestView
  | [] => []
  | d :: ds =>
    if d.outputType = some "svf" ∨ d.outputType = some "svf2" then
      (d.children.filterMap (fun g =>
        if g.type = some "geometry" ∧ (g.role = some "3d" ∨ g.role = some "2d") then
          specProcessGeometry g
        else none)) ++ go ds
    else go ds

theorem processGeometry_ok (g : MNode) (r : Option ManifestView)
    (h : processGeometry g = Except.ok r) : specProcessGeometry g = r := by
  unfold processGeometry at h
  unfold specProcessGeometry
  cases hv : findFirstView g.children with
  | none => simp [hv] at h ⊢; exact h
  | some c =>
    simp only [hv] at h ⊢
    cases hn : c.name with
    | none => simp [hn] at h
    | some n =>
      simp only [hn] at h ⊢
      split at h <;> split at h <;> simp_all

theorem processChildren_ok (gs : List MNode) (vs : List ManifestView)
    (h : processChildren gs = Except.ok vs) :
    gs.filterMap (fun g =>
      if g.type = some "geometry" ∧ (g.role = some "3d" ∨ g.role = some "2d") then
        specProcessGeometry g
      else none) = vs := by
  induction gs generalizing vs with
  | nil => simp [processChildren] at h; simp [h]
  | cons g gs ih =>
    unfold processChildren at h
    by_cases hg : g.type = some "geometry" ∧ (g.role = some "3d" ∨ g.role = some "2d")
    · simp only [if_pos hg] at h
      cases hpg : processGeometry g with
      | error e => simp [hpg] at h
      | ok r =>
        simp only [hpg] at h
        have hr := processGeometry_ok g r hpg
        cases r with
        | none => simp [List.filterMap_cons, if_pos hg, hr]; exact ih vs h
        | some v =>
          cases hrest : processChildren gs with
          | error e => simp [hrest] at h
          | ok rest =>
            simp only [hrest] at h
            cases h
            simp [List.filterMap_cons, if_pos hg, hr]
            exact ih rest hrest
    · simp only [if_neg hg] at h
      simp [List.filterMap_cons, if_neg hg]
      exact ih vs h

theorem get_view_options_go_ok (ds : List MNode) (vs : List ManifestView)
    (h : get_view_options.go ds = Except.ok vs) : extractViewsSpec.go ds = vs := by
  induction ds generalizing vs with
  | nil => simp [get_view_options.go] at h; simp [extractViewsSpec.go, h]
  | cons d ds ih =>
    unfold get_view_options.go at h
    unfold extractViewsSpec.go
    by_cases hd : d.outputType = some "svf" ∨ d.outputType = some "svf2"
    · simp only [if_pos hd] at h ⊢
      cases hc : processChildren d.children with
      | error e => simp [hc] at h
      | ok cvs =>
        simp only [hc] at h
        cases hrest : get_view_options.go ds with
        | error e => simp [hrest] at h
        | ok rest =>
          simp only [hrest] at h
          cases h
          rw [processChildren_ok d.children cvs hc, ih rest hrest]
    · simp only [if_neg hd] at h ⊢
      exact ih vs h

/-- Whenever `get_view_options` runs without raising, its output is exactly
the spec-described selection. -/
theorem get_view_options_ok (m : Manifest) (vs : List ManifestView)
    (h : get_view_options m = Except.ok vs) : extractViewsSpec m = vs :=
  get_view_options_go_ok m.derivatives vs h

/-- The concrete manifest of C1: one `svf2` derivative with a 3D geometry
node named "Model" (view child guid "G1", a non-sheet view name) and a 2D
geometry node (view child named "Sheet: A101", guid "G2"). -/
def c1Manifest : Manifest :=
  ⟨[MNode.mk none none none none (some "svf2")
    [ MNode.mk (some "geometry") (some "3d") (some "Model") none none
        [MNode.mk (some "view") none (some "3D View") (some "G1") none []],
      MNode.mk (some "geometry") (some "2d") (some "A101") none none
        [MNode.mk (some "view") none (some "Sheet: A101") (some "G2") none []]]]⟩

/-! ## Catalog dictionary (Python `dict` with string keys)

`get_all_cad_from_folder` builds `viewable_files: dict[str, dict[str, str]]`
whose values are `{"urn": urn}`; we model a catalog as an insertion-ordered
association list `display_name ↦ urn`.  `dictInsert` is `d[k] = v` (replace
in place, keeping the key's original position, else append);
`dictUpdate` is `d.update(d2)` (insert `d2`'s pairs in order). -/

abbrev Catalog := List (String × String)

def dictInsert : Catalog → String → String → Catalog
  | [], k, v => [(k, v)]
  | (k', v') :: d, k, v =>
    if k' = k then (k', v) :: d else (k', v') :: dictInsert d k v

def dictUpdate (d : Catalog) (d' : Catalog) : Catalog :=
  d'.foldl (fun acc p => dictInsert acc p.1 p.2) d

def dictKeys (d : Catalog) : List String := d.map Prod.fst

/-! ## Remote folder tree and the recursive walk

`get_all_cad_from_folder` (src/aps_helpers.py lines 181-256) sees, per
folder id, either an HTTP failure of `get_folder_contents` or a list of
content records, each a sub-folder or an item.  We model that remote state
as a tree: an item carries its `displayName` and the outcome of
`get_item_versions` (`none` = the versions request raised `HTTPError`,
caught by the per-item handler; `some vs` = the returned `data` list of
version records); a folder is either `okFolder cs` (listing succeeds with
contents `cs`) or `badFolder` (listing raises `HTTPError`). -/

structure VersionRec where
  id : String
deriving DecidableEq, Repr

inductive FsNode where
  | item : String → Option (List VersionRec) → FsNode
  | okFolder : List FsNode → FsNode
  | badFolder : FsNode

/-- `supported_extensions` (src/aps_helpers.py lines 212-220). -/
def supportedExtensions : List String :=
  [".rvt", ".dwg", ".ifc", ".step", ".stp", ".iam", ".ipt"]

/-- Python's `s.lower()` (character-wise lowercase). -/
def pyLower (s : String) : String :=
  String.mk (s.data.map Char.toLower)

/-- Python's `s.endswith(p)`: `p` is a suffix of `s`. -/
def pyEndsWith (s p : String) : Bool :=
  p.data.isSuffixOf s.data

/-- `any(display_name.lower().endswith(ext) for ext in supported_extensions)`
(src/aps_helpers.py lines 221-223). -/
def isCadFile (displayName : String) : Bool :=
  supportedExtensions.any (fun ext => pyEndsWith (pyLower displayName) ext)

/-- Version resolution (src/aps_helpers.py lines 224-229): `get_item_versions`
returns `data`; `if versions:` then `versions[0]["id"]` is the URN, no
re-sorting; an empty list resolves to nothing. -/
def resolveLatestVersion : List VersionRec → Option String
  | [] => none
  | v :: _ => some v.id

mutual

/-- The `for content in contents.data` loop of `get_all_cad_from_folder`,
threading the enclosing `viewable_files` dict through each record. -/
def walkList (acc : Catalog) : List FsNode → Catalog
  | [] => acc
  | e :: es => walkList (walkEntry acc e) es

/-- One content record of `get_all_cad_from_folder`: a sub-folder is walked
recursively into a fresh dict which is then merged (`viewable_files.update`);
an item is filtered by extension, its versions resolved, and on success
`viewable_files[display_name] = {"urn": version_urn}`. -/
def walkEntry (acc : Catalog) : FsNode → Catalog
  | .item displayName vers =>
    if isCadFile displayName then
      match vers with
      | none => acc        -- HTTPError from get_item_versions, caught per item
      | some vs =>
        match resolveLatestVersion vs with
        | none => acc      -- `if versions:` is false for []
        | some urn => dictInsert acc displayName urn
    else acc
  | .okFolder cs =>
    -- `sub_viewables = get_all_cad_from_folder(...)`, then
    -- `if sub_viewables: viewable_files.update(sub_viewables)`
    -- (updating with the empty dict is also the identity).
    dictUpdate acc (walkList [] cs)
  | .badFolder =>
    -- `get_folder_contents` raised: the except branch returns the (empty)
    -- dict accumulated so far for that subtree, so the parent merges nothing.
    dictUpdate acc []

end

theorem walkList_nil (acc : Catalog) : walkList acc [] = acc := by
  rw [walkList]

theorem walkList_cons (acc : Catalog) (e : FsNode) (es : List FsNode) :
    walkList acc (e :: es) = walkList (walkEntry acc e) es := by
  rw [walkList]

theorem walkEntry_item (acc : Catalog) (n : String) (v : Option (List VersionRec)) :
    walkEntry acc (.item n v) =
      if isCadFile n then
        match v with
        | none => acc
        | some vs =>
          match resolveLatestVersion vs with
          | none => acc
          | some urn => dictInsert acc n urn
      else acc := by
  rw [walkEntry.eq_def]

theorem walkEntry_okFolder (acc : Catalog) (cs : List FsNode) :
    walkEntry acc (.okFolder cs) = dictUpdate acc (walkList [] cs) := by
  simp only [walkEntry]

theorem dictUpdate_nil (acc : Catalog) : dictUpdate acc [] = acc := rfl

theorem walkEntry_badFolder (acc : Catalog) : walkEntry acc .badFolder = acc := by
  simp only [walkEntry]
  rfl

/-- `get_all_cad_from_folder` on one folder: an `HTTPError` on the listing
returns the empty dict (lines 186-190), otherwise the contents are walked. -/
def get_all_cad_from_folder : FsNode → Catalog
  | .okFolder cs => walkList [] cs
  | .badFolder => []
  | .item _ _ => []

/-- The same folder tree with every folder whose listing fails removed,
together with its entire subtree. -/
def pruneList : List FsNode → List FsNode
  | [] => []
  | .badFolder :: es => pruneList es
  | .okFolder cs :: es => .okFolder (pruneList cs) :: pruneList es
  | .item n v :: es => .item n v :: pruneList es

/-- The successfully resolved CAD items of a tree in depth-first pre-order:
exactly the `(display_name, urn)` pairs the walk inserts, in insertion
order. -/
def collectedItems : List FsNode → List (String × String)
  | [] => []
  | .item n v :: es =>
    (match (if isCadFile n then v.map resolveLatestVersion else none) with
     | some (some urn) => [(n, urn)]
     | _ => []) ++ collectedItems es
  | .okFolder cs :: es => collectedItems cs ++ collectedItems es
  | .badFolder :: es => collectedItems es

/-- First binding of a key in an ordered pair list. -/
def pairsLookup : List (String × String) → String → Option String
  | [], _ => none
  | (a, b) :: d, k => if k = a then some b else pairsLookup d k

/-- The last binding of `k` in an ordered pair list (later pairs win). -/
def lastBinding (l : List (String × String)) (k : String) : Option String :=
  pairsLookup l.reverse k

/-- Pruning failing folders does not change the walk: a failing folder's
subtree contributes the empty dict, which merges as a no-op. -/
theorem walkList_pruneList (acc : Catalog) (es : List FsNode) :
    walkList acc (pruneList es) = walkList acc es := by
  match es with
  | [] => simp [pruneList]
  | .item n v :: es =>
    rw [pruneList, walkList_cons, walkList_cons]
    exact walkList_pruneList _ es
  | .okFolder cs :: es =>
    rw [pruneList, walkList_cons, walkList_cons, walkEntry_okFolder,
      walkEntry_okFolder, walkList_pruneList [] cs]
    exact walkList_pruneList _ es
  | .badFolder :: es =>
    rw [pruneList, walkList_cons, walkEntry_badFolder]
    exact walkList_pruneList acc es
termination_by sizeOf es

theorem pairsLookup_append (l₁ l₂ : List (String × String)) (k : String) :
    pairsLookup (l₁ ++ l₂) k = (pairsLookup l₁ k).or (pairsLookup l₂ k) := by
  induction l₁ with
  | nil => simp [pairsLookup]
  | cons p l₁ ih =>
    obtain ⟨a, b⟩ := p
    by_cases hk : k = a <;> simp [pairsLookup, hk, ih]

theorem pairsLookup_dictInsert (d : Catalog) (k' v' k : String) :
    pairsLookup (dictInsert d k' v') k =
      if k = k' then some v' else pairsLookup d k := by
  induction d with
  | nil => simp [dictInsert, pairsLookup]
  | cons p d ih =>
    obtain ⟨a, b⟩ := p
    rw [dictInsert]
    by_cases hak : a = k'
    · subst hak
      by_cases hk : k = a <;> simp [pairsLookup, hk]
    · rw [if_neg hak]
      by_cases hk : k = a
      · have hkk : ¬ k = k' := by rw [hk]; exact hak
        simp [pairsLookup, hk, hkk, hak]
      · simp [pairsLookup, hk, ih]

theorem dictKeys_dictInsert (d : Catalog) (k v : String) :
    dictKeys (dictInsert d k v) =
      if k ∈ dictKeys d then dictKeys d else dictKeys d ++ [k] := by
  induction d with
  | nil => simp [dictInsert, dictKeys]
  | cons p d ih =>
    obtain ⟨a, b⟩ := p
    rw [dictInsert]
    by_cases hak : a = k
    · subst hak
      simp [dictKeys]
    · rw [if_neg hak]
      have hka : ¬ k = a := fun h => hak h.symm
      simp only [dictKeys, List.map_cons] at ih ⊢
      rw [ih]
      by_cases hm : k ∈ List.map Prod.fst d
      · simp [List.mem_cons, hka, hm]
      · simp [List.mem_cons, hka, hm]

theorem nodup_dictInsert (d : Catalog) (k v : String)
    (h : List.Nodup (dictKeys d)) : List.Nodup (dictKeys (dictInsert d k v)) := by
  rw [dictKeys_dictInsert]
  by_cases hm : k ∈ dictKeys d
  · simpa [hm]
  · simp only [hm, if_false]
    simpa [List.nodup_append] using ⟨h, hm⟩

theorem nodup_dictUpdate (d d' : Catalog) (h : List.Nodup (dictKeys d)) :
    List.Nodup (dictKeys (dictUpdate d d')) := by
  induction d' generalizing d with
  | nil => exact h
  | cons p d' ih => exact ih _ (nodup_dictInsert d p.1 p.2 h)

theorem pairsLookup_eq_none_of_not_mem (d : Catalog) (k : String)
    (h : k ∉ dictKeys d) : pairsLookup d k = none := by
  induction d with
  | nil => rfl
  | cons p d ih =>
    obtain ⟨a, b⟩ := p
    simp only [dictKeys, List.map_cons, List.mem_cons, not_or] at h
    simp [pairsLookup, h.1, ih (by simpa [dictKeys] using h.2)]

theorem pairsLookup_dictUpdate (d' : Catalog) (d : Catalog) (k : String)
    (h : List.Nodup (dictKeys d')) :
    pairsLookup (dictUpdate d d') k =
      (pairsLookup d' k).or (pairsLookup d k) := by
  induction d' generalizing d with
  | nil => simp [dictUpdate_nil, pairsLookup]
  | cons p d' ih =>
    obtain ⟨a, b⟩ := p
    simp only [dictKeys, List.map_cons, List.nodup_cons] at h
    have step : dictUpdate d ((a, b) :: d') = dictUpdate (dictInsert d a b) d' := rfl
    rw [step, ih (dictInsert d a b) h.2]
    by_cases hk : k = a
    · subst hk
      have hnone : pairsLookup d' k = none :=
        pairsLookup_eq_none_of_not_mem d' k (by simpa [dictKeys] using h.1)
      simp [hnone, pairsLookup, pairsLookup_dictInsert]
    · simp [pairsLookup, hk, pairsLookup_dictInsert]

theorem nodup_walkList (acc : Catalog) (es : List FsNode)
    (h : List.Nodup (dictKeys acc)) : List.Nodup (dictKeys (walkList acc es)) := by
  match es with
  | [] => rw [walkList_nil]; exact h
  | e :: es =>
    rw [walkList_cons]
    refine nodup_walkList _ es ?_
    match e with
    | .badFolder => rw [walkEntry_badFolder]; exact h
    | .okFolder cs => rw [walkEntry_okFolder]; exact nodup_dictUpdate _ _ h
    | .item n v =>
      rw [walkEntry_item]
      split
      · match v with
        | none => exact h
        | some vs =>
          match hr : resolveLatestVersion vs with
          | none => simp only [hr]; exact h
          | some urn => simp only [hr]; exact nodup_dictInsert _ _ _ h
      · exact h
termination_by sizeOf es

theorem lastBinding_append (l₁ l₂ : List (String × String)) (k : String) :
    lastBinding (l₁ ++ l₂) k = (lastBinding l₂ k).or (lastBinding l₁ k) := by
  simp [lastBinding, List.reverse_append, pairsLookup_append]

/-- Core collision characterization: looking a key up in the walked catalog
finds the binding of the item that was merged last in depth-first pre-order,
falling back to the accumulator. -/
theorem pairsLookup_walkList (es : List FsNode) (acc : Catalog) (k : String) :
    pairsLookup (walkList acc es) k =
      (lastBinding (collectedItems es) k).or (pairsLookup acc k) := by
  match es with
  | [] => rw [walkList_nil]; simp [collectedItems, lastBinding, pairsLookup]
  | .badFolder :: es =>
    rw [walkList_cons, walkEntry_badFolder, collectedItems]
    exact pairsLookup_walkList es acc k
  | .okFolder cs :: es =>
    rw [walkList_cons, walkEntry_okFolder, collectedItems]
    rw [pairsLookup_walkList es _ k]
    rw [pairsLookup_dictUpdate _ _ _ (nodup_walkList [] cs (by simp [dictKeys]))]
    rw [pairsLookup_walkList cs [] k]
    simp only [pairsLookup, lastBinding_append, Option.or_assoc, Option.or_none]
  | .item n v :: es =>
    rw [walkList_cons, walkEntry_item, collectedItems]
    rw [pairsLookup_walkList es _ k]
    by_cases hc : isCadFile n
    · simp only [hc, if_true]
      match v with
      | none => simp [lastBinding, pairsLookup]
      | some vs =>
        match hr : resolveLatestVersion vs with
        | none => simp [hr, lastBinding, pairsLookup]
        | some urn =>
          simp only [hr, Option.map_some, lastBinding_append, Option.or_assoc,
            pairsLookup_dictInsert]
          congr 1
          by_cases hk : k = n <;>
            simp [lastBinding, pairsLookup, hk, hr]
    · simp [hc, lastBinding, pairsLookup]
termination_by sizeOf es

/-! ## Hubs and the hub-level catalog build
(`get_hubs` / `get_hub_id_by_name` / `get_all_cad_file_from_hub` in
`src/aps_helpers.py`, `get_viewable_files_dict` in `src/app.py`) -/

/-- A hub record as the code reads it: `hub.id` and `hub.attributes.name`. -/
structure Hub where
  id : String
  name : String

/-- The remote state the hub walk sees: the hub records `get_hubs` returns,
and, per hub id, the projects `get_projects` returns, each as the list of its
top folders (each an `FsNode` folder whose listing either succeeds or
fails). -/
structure RemoteEnv where
  hubs : List Hub
  projects : String → List (List FsNode)

/-- Inner loop of `process_hub`: for each top folder,
`viewables = get_all_cad_from_folder(...)`, then
`if viewables: all_viewables.update(viewables)`. -/
def processTopFolders (acc : Catalog) (topFolders : List FsNode) : Catalog :=
  topFolders.foldl (fun a f => dictUpdate a (get_all_cad_from_folder f)) acc

/-- `process_hub` (src/aps_helpers.py lines 139-159): iterate the hub's
projects and their top folders, merging into the shared `all_viewables`. -/
def process_hub (env : RemoteEnv) (acc : Catalog) (hubId : String) : Catalog :=
  (env.projects hubId).foldl processTopFolders acc

/-- `get_all_cad_file_from_hub` (src/aps_helpers.py lines 124-178): with a
truthy `hub_id`, process only that hub; otherwise enumerate every hub of the
token (empty hub list returns `{}`). -/
def get_all_cad_file_from_hub (env : RemoteEnv) (hub_id : Option String) : Catalog :=
  if truthyStr hub_id then
    process_hub env [] (hub_id.getD "")
  else if env.hubs.isEmpty then []
  else env.hubs.foldl (fun a h => process_hub env a h.id) []

/-- `get_hub_id_by_name` (src/aps_helpers.py lines 116-123): scan the hub
records in API order and return the id of the first whose name equals
(`==`, case-sensitive) the requested name; `None` when no hub matches. -/
def get_hub_id_by_name (hubs : List Hub) (hub_name : String) : Option String :=
  match hubs with
  | [] => none
  | h :: hs => if h.name = hub_name then some h.id else get_hub_id_by_name hs hub_name

/-- `get_viewable_files_dict` (src/app.py lines 73-83): `if not params.hubs:
return {}`, else resolve the hub id by name and build the catalog
(`... or {}` keeps the falsy-dict case a dict, which is the identity here
since `get_all_cad_file_from_hub` already returns a dict). -/
def get_viewable_files_dict (env : RemoteEnv) (hubsParam : Option String) : Catalog :=
  if truthyStr hubsParam then
    get_all_cad_file_from_hub env (get_hub_id_by_name env.hubs (hubsParam.getD ""))
  else []

/-! ## Remote API client response handling

Each wrapper issues one blocking `requests.get` and handles the response; we
embed the response handling as a function of the HTTP status code and parsed
body.  `raise_for_status` raises `HTTPError` exactly for 4xx/5xx statuses. -/

def raise_for_status (status : Nat) : Except Nat Unit :=
  if 400 ≤ status ∧ status < 600 then Except.error status else Except.ok ()

/-- `get_hubs`: `raise_for_status` then parse the body. -/
def get_hubs_result {α : Type} (status : Nat) (body : α) : Except Nat α :=
  match raise_for_status status with
  | Except.error e => Except.error e
  | Except.ok _ => Except.ok body

/-- `get_projects`: `raise_for_status` then parse the body. -/
def get_projects_result {α : Type} (status : Nat) (body : α) : Except Nat α :=
  match raise_for_status status with
  | Except.error e => Except.error e
  | Except.ok _ => Except.ok body

/-- `get_top_folders`: `raise_for_status` then parse the body. -/
def get_top_folders_result {α : Type} (status : Nat) (body : α) : Except Nat α :=
  match raise_for_status status with
  | Except.error e => Except.error e
  | Except.ok _ => Except.ok body

/-- `get_folder_contents`: `raise_for_status` then parse the body. -/
def get_folder_contents_result {α : Type} (status : Nat) (body : α) : Except Nat α :=
  match raise_for_status status with
  | Except.error e => Except.error e
  | Except.ok _ => Except.ok body

/-- `get_item_versions`: `raise_for_status` then `response.json().get("data", [])`. -/
def get_item_versions_result (status : Nat) (data : List VersionRec) :
    Except Nat (List VersionRec) :=
  match raise_for_status status with
  | Except.error e => Except.error e
  | Except.ok _ => Except.ok data

/-- The translation-status field of a manifest response body. -/
structure ManifestBody where
  status : String

/-- `get_model_views_and_metadata` (src/aps_helpers.py lines 75-106): the
manifest request returns `None` on 404 ("not translated"),
`raise_for_status` otherwise, `None` when translation status is not
`"success"`; then the metadata request returns its data on 200 and `None` on
any other status (it never raises). -/
def get_model_views_and_metadata {α : Type} (manifestStatus : Nat)
    (manifest : ManifestBody) (metadataStatus : Nat) (metadata : α) :
    Except Nat (Option α) :=
  if manifestStatus = 404 then Except.ok none
  else
    match raise_for_status manifestStatus with
    | Except.error e => Except.error e
    | Except.ok _ =>
      if manifest.status ≠ "success" then Except.ok none
      else if metadataStatus = 200 then Except.ok (some metadata)
      else Except.ok none

/-! ## URN encoding
(`base64.urlsafe_b64encode(urn.encode()).decode().rstrip("=")`, used at
src/app.py lines 28 and 123 and src/aps_helpers.py line 80) -/

/-- The URL-safe base64 alphabet of `base64.urlsafe_b64encode`. -/
def b64Alphabet : List Char :=
  "ABCDEFGHIJKLMNOPQRSTUVWXYZabcdefghijklmnopqrstuvwxyz0123456789-_".data

def b64Char (n : Nat) : Char := b64Alphabet.getD n '?'

def b64Index (c : Char) : Nat := (b64Alphabet.findIdx? (fun x => x = c)).getD 0

/-- Standard base64 of a byte list, with `=` padding: each 3-byte group
becomes 4 sextet characters; a trailing 1- or 2-byte group is padded. -/
def b64EncodeBytes : List Nat → List Char
  | [] => []
  | [b1] => [b64Char (b1 / 4), b64Char (b1 % 4 * 16), '=', '=']
  | [b1, b2] =>
    [b64Char (b1 / 4), b64Char (b1 % 4 * 16 + b2 / 16), b64Char (b2 % 16 * 4), '=']
  | b1 :: b2 :: b3 :: rest =>
    b64Char (b1 / 4) :: b64Char (b1 % 4 * 16 + b2 / 16) ::
    b64Char (b2 % 16 * 4 + b3 / 64) :: b64Char (b3 % 64) :: b64EncodeBytes rest

/-- Python's `.rstrip("=")`: drop trailing `=` characters. -/
def rstripEquals (l : List Char) : List Char :=
  (l.reverse.dropWhile (fun c => c = '=')).reverse

/-- `urn.encode()` (ASCII bytes) → URL-safe base64 → strip trailing `=`:
the exact viewer-facing URN transform. -/
def encode_urn (urn : String) : String :=
  String.mk (rstripEquals (b64EncodeBytes (urn.data.map Char.toNat)))

/-- Re-add `=` padding to a multiple of 4, as the claim's decode step
requires before `base64.urlsafe_b64decode`. -/
def padEquals (l : List Char) : List Char :=
  l ++ List.replicate ((4 - l.length % 4) % 4) '='

/-- base64 decode of a padded character list (well-formed inputs). -/
def b64DecodeChars : List Char → List Nat
  | c1 :: c2 :: c3 :: c4 :: rest =>
    if c3 = '=' then [b64Index c1 * 4 + b64Index c2 / 16]
    else if c4 = '=' then
      [b64Index c1 * 4 + b64Index c2 / 16, b64Index c2 % 16 * 16 + b64Index c3 / 4]
    else
      (b64Index c1 * 4 + b64Index c2 / 16) ::
      (b64Index c2 % 16 * 16 + b64Index c3 / 4) ::
      (b64Index c3 % 4 * 64 + b64Index c4) ::
      b64DecodeChars rest
  | _ => []

/-- Decode: re-pad, base64-decode, and turn the bytes back into characters. -/
def decode_urn (s : String) : String :=
  String.mk ((b64DecodeChars (padEquals s.data)).map Char.ofNat)

theorem b64Index_b64Char : ∀ n < 64, b64Index (b64Char n) = n := by decide

theorem b64Char_ne_pad : ∀ n < 64, b64Char n ≠ '=' := by decide

theorem rstripEquals_append (l₁ l₂ : List Char) :
    rstripEquals (l₁ ++ l₂) =
      if rstripEquals l₂ = [] then rstripEquals l₁ else l₁ ++ rstripEquals l₂ := by
  unfold rstripEquals
  rw [List.reverse_append, List.dropWhile_append]
  by_cases h : List.dropWhile (fun c => c = '=') l₂.reverse = []
  · simp [h]
  · simp [h, List.reverse_append]

theorem rstripEquals_last_ne (l : List Char) (w : Char) (hw : w ≠ '=') :
    rstripEquals (l ++ [w]) = l ++ [w] := by
  unfold rstripEquals
  rw [List.reverse_append]
  simp [List.dropWhile_cons, hw]

theorem padEquals_append_chunk (c l : List Char) (hc : c.length = 4) :
    padEquals (c ++ l) = c ++ padEquals l := by
  unfold padEquals
  have harith : (4 - (4 + l.length) % 4) % 4 = (4 - l.length % 4) % 4 := by omega
  rw [List.length_append, hc, harith, List.append_assoc]

/-- Byte-level round trip: decoding the re-padded, stripped base64 encoding
of any byte list recovers the bytes. -/
theorem b64_roundtrip_bytes (bs : List Nat) (hb : ∀ b ∈ bs, b < 256) :
    b64DecodeChars (padEquals (rstripEquals (b64EncodeBytes bs))) = bs := by
  match bs with
  | [] => rfl
  | [b1] =>
    have h1 : b1 < 256 := hb b1 (by simp)
    have hx : b1 / 4 < 64 := by omega
    have hy : b1 % 4 * 16 < 64 := by omega
    rw [b64EncodeBytes]
    have hsplit : ([b64Char (b1 / 4), b64Char (b1 % 4 * 16), '=', '='] : List Char)
        = ([b64Char (b1 / 4)] ++ [b64Char (b1 % 4 * 16)]) ++ ['=', '='] := rfl
    rw [hsplit, rstripEquals_append]
    rw [if_pos (by rfl)]
    rw [rstripEquals_last_ne _ _ (b64Char_ne_pad _ hy)]
    have hjoin : ([b64Char (b1 / 4)] ++ [b64Char (b1 % 4 * 16)] : List Char)
        = [b64Char (b1 / 4), b64Char (b1 % 4 * 16)] := rfl
    rw [hjoin]
    have hpad : padEquals [b64Char (b1 / 4), b64Char (b1 % 4 * 16)]
        = [b64Char (b1 / 4), b64Char (b1 % 4 * 16), '=', '='] := rfl
    have hdec : b64DecodeChars [b64Char (b1 / 4), b64Char (b1 % 4 * 16), '=', '=']
        = [b64Index (b64Char (b1 / 4)) * 4 + b64Index (b64Char (b1 % 4 * 16)) / 16] := rfl
    rw [hpad, hdec, b64Index_b64Char _ hx, b64Index_b64Char _ hy]
    have e1 : b1 / 4 * 4 + b1 % 4 * 16 / 16 = b1 := by omega
    rw [e1]
  | [b1, b2] =>
    have h1 : b1 < 256 := hb b1 (by simp)
    have h2 : b2 < 256 := hb b2 (by simp)
    have hx : b1 / 4 < 64 := by omega
    have hy : b1 % 4 * 16 + b2 / 16 < 64 := by omega
    have hz : b2 % 16 * 4 < 64 := by omega
    rw [b64EncodeBytes]
    have hsplit : ([b64Char (b1 / 4), b64Char (b1 % 4 * 16 + b2 / 16),
        b64Char (b2 % 16 * 4), '='] : List Char)
        = ([b64Char (b1 / 4), b64Char (b1 % 4 * 16 + b2 / 16)]
            ++ [b64Char (b2 % 16 * 4)]) ++ ['='] := rfl
    rw [hsplit, rstripEquals_append]
    rw [if_pos (by rfl)]
    rw [rstripEquals_last_ne _ _ (b64Char_ne_pad _ hz)]
    have hjoin : ([b64Char (b1 / 4), b64Char (b1 % 4 * 16 + b2 / 16)]
          ++ [b64Char (b2 % 16 * 4)] : List Char)
        = [b64Char (b1 / 4), b64Char (b1 % 4 * 16 + b2 / 16),
            b64Char (b2 % 16 * 4)] := rfl
    rw [hjoin]
    have hpad : padEquals [b64Char (b1 / 4), b64Char (b1 % 4 * 16 + b2 / 16),
        b64Char (b2 % 16 * 4)]
        = [b64Char (b1 / 4), b64Char (b1 % 4 * 16 + b2 / 16),
            b64Char (b2 % 16 * 4), '='] := rfl
    rw [hpad]
    have hne3 : ¬ (b64Char (b2 % 16 * 4) = '=') := b64Char_ne_pad _ hz
    rw [b64DecodeChars, if_neg hne3, if_pos rfl]
    rw [b64Index_b64Char _ hx, b64Index_b64Char _ hy, b64Index_b64Char _ hz]
    have e1 : b1 / 4 * 4 + (b1 % 4 * 16 + b2 / 16) / 16 = b1 := by omega
    have e2 : (b1 % 4 * 16 + b2 / 16) % 16 * 16 + b2 % 16 * 4 / 4 = b2 := by omega
    rw [e1, e2]
  | b1 :: b2 :: b3 :: rest =>
    have h1 : b1 < 256 := hb b1 (by simp)
    have h2 : b2 < 256 := hb b2 (by simp)
    have h3 : b3 < 256 := hb b3 (by simp)
    have hrest : ∀ b ∈ rest, b < 256 := fun b hbm => hb b (by simp [hbm])
    have ih := b64_roundtrip_bytes rest hrest
    have hx : b1 / 4 < 64 := by omega
    have hy : b1 % 4 * 16 + b2 / 16 < 64 := by omega
    have hz : b2 % 16 * 4 + b3 / 64 < 64 := by omega
    have hw : b3 % 64 < 64 := by omega
    rw [b64EncodeBytes]
    have hsplit : (b64Char (b1 / 4) :: b64Char (b1 % 4 * 16 + b2 / 16) ::
        b64Char (b2 % 16 * 4 + b3 / 64) :: b64Char (b3 % 64) :: b64EncodeBytes rest)
        = ([b64Char (b1 / 4), b64Char (b1 % 4 * 16 + b2 / 16),
            b64Char (b2 % 16 * 4 + b3 / 64)] ++ [b64Char (b3 % 64)])
          ++ b64EncodeBytes rest := rfl
    rw [hsplit, rstripEquals_append]
    by_cases hE : rstripEquals (b64EncodeBytes rest) = []
    · rw [if_pos hE]
      rw [rstripEquals_last_ne _ _ (b64Char_ne_pad _ hw)]
      rw [hE] at ih
      have hrestnil : rest = [] := by
        have : b64DecodeChars (padEquals []) = rest := ih
        simpa [padEquals, b64DecodeChars] using this.symm
      subst hrestnil
      have hpad : padEquals [b64Char (b1 / 4), b64Char (b1 % 4 * 16 + b2 / 16),
          b64Char (b2 % 16 * 4 + b3 / 64), b64Char (b3 % 64)]
          = [b64Char (b1 / 4), b64Char (b1 % 4 * 16 + b2 / 16),
              b64Char (b2 % 16 * 4 + b3 / 64), b64Char (b3 % 64)] := by
        simp [padEquals]
      have hap : ([b64Char (b1 / 4), b64Char (b1 % 4 * 16 + b2 / 16),
          b64Char (b2 % 16 * 4 + b3 / 64)] ++ [b64Char (b3 % 64)] : List Char)
          = [b64Char (b1 / 4), b64Char (b1 % 4 * 16 + b2 / 16),
              b64Char (b2 % 16 * 4 + b3 / 64), b64Char (b3 % 64)] := rfl
      rw [hap, hpad]
      rw [b64DecodeChars, if_neg (b64Char_ne_pad _ hz), if_neg (b64Char_ne_pad _ hw)]
      rw [b64Index_b64Char _ hx, b64Index_b64Char _ hy, b64Index_b64Char _ hz,
        b64Index_b64Char _ hw]
      have e1 : b1 / 4 * 4 + (b1 % 4 * 16 + b2 / 16) / 16 = b1 := by omega
      have e2 : (b1 % 4 * 16 + b2 / 16) % 16 * 16
          + (b2 % 16 * 4 + b3 / 64) / 4 = b2 := by omega
      have e3 : (b2 % 16 * 4 + b3 / 64) % 4 * 64 + b3 % 64 = b3 := by omega
      rw [e1, e2, e3]
      rfl
    · rw [if_neg hE]
      have hap : ([b64Char (b1 / 4), b64Char (b1 % 4 * 16 + b2 / 16),
          b64Char (b2 % 16 * 4 + b3 / 64)] ++ [b64Char (b3 % 64)] : List Char)
          = [b64Char (b1 / 4), b64Char (b1 % 4 * 16 + b2 / 16),
              b64Char (b2 % 16 * 4 + b3 / 64), b64Char (b3 % 64)] := rfl
      rw [hap]
      rw [padEquals_append_chunk _ _ (by rfl)]
      have hconsform : ([b64Char (b1 / 4), b64Char (b1 % 4 * 16 + b2 / 16),
          b64Char (b2 % 16 * 4 + b3 / 64), b64Char (b3 % 64)] : List Char)
            ++ padEquals (rstripEquals (b64EncodeBytes rest))
          = b64Char (b1 / 4) :: b64Char (b1 % 4 * 16 + b2 / 16) ::
            b64Char (b2 % 16 * 4 + b3 / 64) :: b64Char (b3 % 64) ::
            padEquals (rstripEquals (b64EncodeBytes rest)) := rfl
      rw [hconsform]
      rw [b64DecodeChars, if_neg (b64Char_ne_pad _ hz), if_neg (b64Char_ne_pad _ hw)]
      rw [b64Index_b64Char _ hx, b64Index_b64Char _ hy, b64Index_b64Char _ hz,
        b64Index_b64Char _ hw]
      have e1 : b1 / 4 * 4 + (b1 % 4 * 16 + b2 / 16) / 16 = b1 := by omega
      have e2 : (b1 % 4 * 16 + b2 / 16) % 16 * 16
          + (b2 % 16 * 4 + b3 / 64) / 4 = b2 := by omega
      have e3 : (b2 % 16 * 4 + b3 / 64) % 4 * 64 + b3 % 64 = b3 := by omega
      rw [e1, e2, e3, ih]
termination_by bs.length

/-! ## Claim theorems -/

/-- C1: for every parsed manifest, `get_view_options` — whenever it returns —
selects exactly the svf/svf2 derivatives, within each the geometry children
of role 3d/2d, takes the guid of the first `view` child of each, prefers the
view node's name exactly when it starts with `"Sheet:"`, and emits the
entries in manifest order (the spec-side selection `extractViewsSpec`); and
on the concrete manifest with a 3D geometry node "Model" (view guid G1) and
a 2D geometry node whose view child is named "Sheet: A101" (guid G2) it
returns exactly those two entries in that order. -/
theorem claim_C1_manifest_extraction :
    (∀ (m : Manifest) (vs : List ManifestView),
        get_view_options m = Except.ok vs → vs = extractViewsSpec m) ∧
    get_view_options c1Manifest =
      Except.ok [⟨"Model", "G1", "3d"⟩, ⟨"Sheet: A101", "G2", "2d"⟩] :=
  ⟨fun m vs h => (get_view_options_ok m vs h).symm, by rfl⟩

/-- Witness for C1 at the concrete manifest. -/
theorem claim_C1_manifest_extraction_witness :
    [(⟨"Model", "G1", "3d"⟩ : ManifestView), ⟨"Sheet: A101", "G2", "2d"⟩]
      = extractViewsSpec c1Manifest :=
  claim_C1_manifest_extraction.1 c1Manifest _ (by rfl)

/-- C2: a folder whose content listing fails aborts only its own subtree:
the walked catalog of any folder tree equals the catalog of the same tree
with every failing folder's entire subtree removed (sibling subtrees and the
overall walk are unaffected), and a failing root returns the partial (empty)
catalog rather than aborting. -/
theorem claim_C2_partial_failure_isolation (es : List FsNode) :
    get_all_cad_from_folder (FsNode.okFolder es)
      = get_all_cad_from_folder (FsNode.okFolder (pruneList es)) ∧
    get_all_cad_from_folder FsNode.badFolder = [] :=
  ⟨(walkList_pruneList [] es).symm, rfl⟩

/-- C3: the catalog built by the walk has no duplicate display-name keys
(exactly one entry per name), and the urn stored under a name is that of the
successfully resolved CAD item that occurs last in depth-first pre-order
traversal (later merges overwrite earlier keys; no disambiguation). -/
theorem claim_C3_collision_last_wins (es : List FsNode) :
    List.Nodup (dictKeys (get_all_cad_from_folder (FsNode.okFolder es))) ∧
    ∀ k, pairsLookup (get_all_cad_from_folder (FsNode.okFolder es)) k
        = lastBinding (collectedItems es) k := by
  constructor
  · exact nodup_walkList [] es (by simp [dictKeys])
  · intro k
    have h := pairsLookup_walkList es [] k
    simpa [pairsLookup, Option.or_none] using h

/-- C4: version resolution takes the head of the version list as returned
(no re-sorting): a non-empty list resolves to its first element's id, the
concrete list [urn:v3, urn:v2, urn:v1] resolves to "urn:v3", the empty list
resolves to none, and an item whose version list is empty contributes no
catalog entry. -/
theorem claim_C4_version_resolution :
    (∀ (v : VersionRec) (vs : List VersionRec),
        resolveLatestVersion (v :: vs) = some v.id) ∧
    resolveLatestVersion [] = none ∧
    resolveLatestVersion [⟨"urn:v3"⟩, ⟨"urn:v2"⟩, ⟨"urn:v1"⟩] = some "urn:v3" ∧
    (∀ (acc : Catalog) (n : String),
        walkEntry acc (FsNode.item n (some [])) = acc) := by
  refine ⟨fun v vs => rfl, rfl, rfl, ?_⟩
  intro acc n
  rw [walkEntry_item]
  split <;> rfl

/-- C5: an item is treated as CAD exactly when its lowercased display name
ends with one of .rvt .dwg .ifc .step .stp .iam .ipt; "drawing.DWG" passes,
"notes.txt" does not, and a non-matching item is skipped: it produces no
catalog entry and is never recursed into. -/
theorem claim_C5_extension_filter :
    (∀ name : String, isCadFile name = true ↔
        ∃ ext ∈ supportedExtensions, pyEndsWith (pyLower name) ext = true) ∧
    isCadFile "drawing.DWG" = true ∧
    isCadFile "notes.txt" = false ∧
    (∀ (acc : Catalog) (n : String) (v : Option (List VersionRec)),
        isCadFile n = false → walkEntry acc (FsNode.item n v) = acc) := by
  refine ⟨?_, by decide, by decide, ?_⟩
  · intro name
    simp [isCadFile, List.any_eq_true]
  · intro acc n v h
    rw [walkEntry_item]
    simp [h]

/-- Witness for C5: a non-CAD item leaves the catalog unchanged. -/
theorem claim_C5_extension_filter_witness :
    walkEntry [] (FsNode.item "notes.txt" (some [⟨"urn:x"⟩])) = [] :=
  claim_C5_extension_filter.2.2.2 [] "notes.txt" (some [⟨"urn:x"⟩]) (by decide)

/-- C6 counterexample: the claim "every operation raises on any non-2xx
status, with the single exception of the manifest fetch" is false: the
metadata fetch at status 500 returns none instead of failing, and `get_hubs`
at the non-2xx status 304 does not fail (requests' `raise_for_status` raises
only for 4xx/5xx). -/
theorem claim_C6_counterexample :
    get_model_views_and_metadata 200 ⟨"success"⟩ 500 ["meta"] = Except.ok none ∧
    get_hubs_result 304 "hubs-body" = Except.ok "hubs-body" :=
  ⟨rfl, rfl⟩

/-- C6 (amended): every listing operation fails on any 4xx/5xx status; the
manifest fetch returns none on 404 ("not yet translated") and fails on other
4xx/5xx statuses; the metadata fetch never fails on status, returning none
on any non-200 response. -/
theorem claim_C6_amended_status_handling (s : Nat) (h4 : 400 ≤ s) (h6 : s < 600) :
    (∀ (α : Type) (b : α), get_hubs_result s b = Except.error s) ∧
    (∀ (α : Type) (b : α), get_projects_result s b = Except.error s) ∧
    (∀ (α : Type) (b : α), get_top_folders_result s b = Except.error s) ∧
    (∀ (α : Type) (b : α), get_folder_contents_result s b = Except.error s) ∧
    (∀ d, get_item_versions_result s d = Except.error s) ∧
    (∀ (mb : ManifestBody) (ms : Nat) (α : Type) (md : α),
        get_model_views_and_metadata 404 mb ms md = Except.ok none) ∧
    (s ≠ 404 → ∀ (mb : ManifestBody) (ms : Nat) (α : Type) (md : α),
        get_model_views_and_metadata s mb ms md = Except.error s) ∧
    (∀ (t ms : Nat) (α : Type) (md : α), ¬ (400 ≤ t ∧ t < 600) → t ≠ 404 →
        ms ≠ 200 →
        get_model_views_and_metadata t ⟨"success"⟩ ms md = Except.ok none) := by
  have hrs : raise_for_status s = Except.error s := by
    simp [raise_for_status, h4, h6]
  refine ⟨fun α b => ?_, fun α b => ?_, fun α b => ?_, fun α b => ?_, fun d => ?_,
      fun mb ms α md => ?_, fun h404 mb ms α md => ?_, fun t ms α md hok h404 hms => ?_⟩
  · simp [get_hubs_result, hrs]
  · simp [get_projects_result, hrs]
  · simp [get_top_folders_result, hrs]
  · simp [get_folder_contents_result, hrs]
  · simp [get_item_versions_result, hrs]
  · simp [get_model_views_and_metadata]
  · simp [get_model_views_and_metadata, h404, hrs]
  · have hrt : raise_for_status t = Except.ok () := by
      simp [raise_for_status, hok]
    simp [get_model_views_and_metadata, h404, hrt, hms]

/-- Witness for C6 (amended), at status 503 and a non-200 metadata status. -/
theorem claim_C6_amended_witness :
    get_hubs_result 503 "b" = Except.error 503 ∧
    get_model_views_and_metadata 503 (⟨"success"⟩ : ManifestBody) 200 "m"
      = Except.error 503 ∧
    get_model_views_and_metadata 200 (⟨"success"⟩ : ManifestBody) 404 "m"
      = Except.ok none :=
  ⟨(claim_C6_amended_status_handling 503 (by decide) (by decide)).1 String "b",
   (claim_C6_amended_status_handling 503 (by decide) (by decide)).2.2.2.2.2.2.1
     (by decide) ⟨"success"⟩ 200 String "m",
   (claim_C6_amended_status_handling 503 (by decide) (by decide)).2.2.2.2.2.2.2
     200 404 String "m" (by decide) (by decide) (by decide)⟩

/-- The manifest of C7's failing input: an svf derivative with a 3D geometry
container named "Model" whose view child has a guid but no name field. -/
def c7Manifest : Manifest :=
  ⟨[MNode.mk none none none none (some "svf")
    [MNode.mk (some "geometry") (some "3d") (some "Model") none none
      [MNode.mk (some "view") none none (some "G9") none []]]]⟩

/-- C7: the extraction is NOT total — on a geometry container whose view
child has a guid but no name, `child_node.get("name").startswith("Sheet:")`
is `None.startswith`, raising `AttributeError` (modelled as `Except.error`)
instead of emitting or silently dropping the container; the spec-side
extraction emits the container under its own name there. -/
theorem claim_C7_extraction_not_total :
    get_view_options c7Manifest = Except.error "AttributeError" ∧
    specProcessGeometry (MNode.mk (some "geometry") (some "3d") (some "Model")
        none none [MNode.mk (some "view") none none (some "G9") none []])
      = some ⟨"Model", "G9", "3d"⟩ :=
  ⟨rfl, rfl⟩

/-- C8: the viewer-facing URN transform is raw string → URL-safe base64 →
strip trailing padding (checked bit-for-bit on a concrete URN), and for
every ASCII URN string, decoding after re-adding padding returns the
original string. -/
theorem claim_C8_urn_roundtrip :
    encode_urn "urn:a" = "dXJuOmE" ∧
    ∀ urn : String, (∀ c ∈ urn.data, c.toNat < 128) →
      decode_urn (encode_urn urn) = urn := by
  refine ⟨by rfl, ?_⟩
  intro urn hascii
  obtain ⟨cs⟩ := urn
  have hb : ∀ b ∈ cs.map Char.toNat, b < 256 := by
    intro b hbm
    obtain ⟨c, hc, rfl⟩ := List.mem_map.mp hbm
    have := hascii c hc
    omega
  unfold decode_urn encode_urn
  rw [show (String.mk (rstripEquals (b64EncodeBytes ((String.mk cs).data.map
      Char.toNat)))).data
      = rstripEquals (b64EncodeBytes (cs.map Char.toNat)) from rfl]
  rw [b64_roundtrip_bytes _ hb, List.map_map]
  simp [Function.comp_def, Char.ofNat_toNat]

/-- Witness for C8 on a realistic URN. -/
theorem claim_C8_urn_roundtrip_witness :
    decode_urn (encode_urn "urn:adsk.wipprod:fs.file:vf.Ab12?version=3")
      = "urn:adsk.wipprod:fs.file:vf.Ab12?version=3" :=
  claim_C8_urn_roundtrip.2 "urn:adsk.wipprod:fs.file:vf.Ab12?version=3" (by decide)

/-- C9: the catalog build with an empty or absent hub selection returns the
empty mapping (a dict, never a null/absent value), for every remote
hierarchy. -/
theorem claim_C9_empty_hub_selection (env : RemoteEnv) :
    get_viewable_files_dict env none = [] ∧
    get_viewable_files_dict env (some "") = [] :=
  ⟨rfl, rfl⟩

/-- C10: hub resolution by name returns the id of the first hub in API order
whose name is exactly (case-sensitively) equal to the requested name, and
none when no hub matches; with two hubs named "A", the second's id is never
returned. -/
theorem claim_C10_hub_by_name :
    (∀ (hubs : List Hub) (n : String),
        get_hub_id_by_name hubs n = (hubs.find? (fun h => h.name == n)).map Hub.id) ∧
    get_hub_id_by_name [⟨"id1", "A"⟩, ⟨"id2", "A"⟩] "A" = some "id1" ∧
    get_hub_id_by_name [⟨"id1", "A"⟩] "a" = none := by
  refine ⟨?_, by rfl, by rfl⟩
  intro hubs n
  induction hubs with
  | nil => rfl
  | cons h hs ih =>
    rw [get_hub_id_by_name]
    by_cases hn : h.name = n
    · simp [List.find?_cons, hn]
    · simp [List.find?_cons, hn, ih]

end APS
